import Mathlib

/-!
# Verification of the Procrastination Alarm core

Shallow embedding of the intervention decision loop and the behavioral
memory store of the repository (`src/screen-analyzer.ts` and the memory
system module), together with proofs about the embedded operations.

Conventions of the embedding:
* JavaScript numbers are modelled as exact rationals (`ℚ`); timestamps as `Int`.
* JavaScript runtime values flowing out of `JSON.parse` are modelled by the
  inductive type `JsonValue`; a missing object field is `Option.none`
  (JavaScript `undefined`).
* Methods that mutate `this` are modelled as functions from the relevant
  state to the updated state.
* Asynchronous calls that may fail are modelled with `Except`/`Option`
  outcomes; a `catch` block corresponds to the handling of the failure
  constructor.
-/

/-- Runtime JSON-like value, the result of `JSON.parse`. -/
inductive JsonValue where
  | jnull : JsonValue
  | jbool : Bool → JsonValue
  | jnum : ℚ → JsonValue
  | jstr : String → JsonValue
  | jarr : List JsonValue → JsonValue
  | jobj : List (String × JsonValue) → JsonValue

namespace JsonValue

/-- JavaScript truthiness of a runtime value. -/
def truthy : JsonValue → Bool
  | .jnull => false
  | .jbool b => b
  | .jnum q => decide (q ≠ 0)
  | .jstr s => decide (s ≠ "")
  | .jarr _ => true
  | .jobj _ => true

/-- Property access `v[key]`; `none` models JavaScript `undefined`
(non-objects and missing keys). -/
def getField : JsonValue → String → Option JsonValue
  | .jobj fields, k => fields.lookup k
  | _, _ => none

/-- Truthiness of `v[key]` (`undefined` is falsy). -/
def truthyField (v : JsonValue) (k : String) : Bool :=
  match v.getField k with
  | some w => w.truthy
  | none => false

/-- `typeof v[key] === "boolean"`. -/
def boolField (v : JsonValue) (k : String) : Bool :=
  match v.getField k with
  | some (.jbool _) => true
  | _ => false

end JsonValue

/-! ## Decision engine (`ProductivityAgent` in `src/screen-analyzer.ts`) -/

/-- `ProductivityAgent.maxHistorySize` (`private readonly maxHistorySize = 10`). -/
def maxHistorySize : Nat := 10

/-- `ProductivityAgent.addToHistory`: push the record, then `shift()` the
oldest one out when the length exceeds `maxHistorySize`.  The operation
never inspects the records, so it is stated for an arbitrary element type. -/
def addToHistory {α : Type} (hist : List α) (i : α) : List α :=
  let h := hist ++ [i]
  if h.length > maxHistorySize then h.drop 1 else h

/-- `ProductivityAgent.getDefaultDecision()` as the runtime object it
builds (`Date.now()` is passed in as `now`). -/
def getDefaultDecision (now : Int) : JsonValue :=
  .jobj
    [("shouldIntervene", .jbool false),
     ("intervention",
       .jobj [("type", .jstr "none"), ("message", .jstr ""),
              ("timestamp", .jnum now)]),
     ("reasoning", .jstr "Failed to make decision, defaulting to no intervention"),
     ("confidence", .jnum 0)]

/-- The validation performed by `ProductivityAgent.parseAgentDecision` on an
extracted payload: `typeof decision.shouldIntervene === "boolean"`,
`decision.intervention` truthy, `decision.reasoning` truthy.  `none` models
the case where the regex found no `{...}` block or `JSON.parse` threw. -/
def wellFormedPayload : Option JsonValue → Bool
  | none => false
  | some j =>
      j.boolField "shouldIntervene" && j.truthyField "intervention" &&
        j.truthyField "reasoning"

/-- `ProductivityAgent.parseAgentDecision`.  The regex extraction
(`response.match(/\x7b[\s\S]*\x7d/)`) composed with `JSON.parse` is an
external library step; its outcome is the `Option JsonValue` argument
(`none` = no match or parse failure).  On a validated payload the parsed
object is returned unchanged (`return decision as AgentDecision`);
otherwise the catch block returns the default decision. -/
def parseAgentDecision (now : Int) (extracted : Option JsonValue) : JsonValue :=
  match extracted with
  | none => getDefaultDecision now
  | some j => if wellFormedPayload (some j) then j else getDefaultDecision now

/-- `ProductivityAgent.decideIntervention`.  The backend call
(`agent.runTask` + event accumulation) either throws (`Except.error`, caught
by the surrounding `try` which returns the default decision) or produces a
response text whose extraction outcome is `Except.ok extracted`.  On
`decision.shouldIntervene` (truthy test) the decision's intervention object
is appended to the in-process history.  Returns the decision and the
updated history. -/
def decideIntervention (now : Int) (backend : Except Unit (Option JsonValue))
    (hist : List JsonValue) : JsonValue × List JsonValue :=
  match backend with
  | .error _ => (getDefaultDecision now, hist)
  | .ok extracted =>
      let decision := parseAgentDecision now extracted
      let hist' :=
        if (decision.getField "shouldIntervene").elim false JsonValue.truthy then
          addToHistory hist ((decision.getField "intervention").getD .jnull)
        else hist
      (decision, hist')

/-- The `Intervention` interface of `src/screen-analyzer.ts`:
`{type, message, timestamp, wasEffective?}`. -/
structure Intervention where
  type : String
  message : String
  timestamp : Int
  wasEffective : Option Bool
deriving DecidableEq

/-- `ProductivityAgent.recordInterventionEffectiveness`: when the history is
nonempty, set `wasEffective` on its last element (unconditionally); when it
is empty, do nothing. -/
def recordInterventionEffectiveness (hist : List Intervention)
    (wasEffective : Bool) : List Intervention :=
  match hist.getLast? with
  | some last => hist.dropLast ++ [{ last with wasEffective := some wasEffective }]
  | none => hist

/-! ## Behavioral memory store (`MemorySystem`) -/

/-- The `ProductivitySession` interface:
`{startTime, endTime?, wasProductive, interventionsCount, activitySummary}`. -/
structure ProductivitySession where
  startTime : Int
  endTime : Option Int
  wasProductive : Bool
  interventionsCount : Nat
  activitySummary : String
deriving DecidableEq

/-- Hour histograms are `Record<number, number>` objects.  A JavaScript
object enumerates integer-like keys in ascending numeric order, so the
object is modelled as its entry list, kept strictly ascending by key. -/
abbrev Histogram := List (Nat × Nat)

/-- `map[hour] = (map[hour] || 0) + 1` on a `Record<number, number>`,
preserving the ascending-key enumeration order of the object. -/
def bumpHour : Histogram → Nat → Histogram
  | [], h => [(h, 1)]
  | (k, v) :: rest, h =>
      if h = k then (k, v + 1) :: rest
      else if h < k then (h, 1) :: (k, v) :: rest
      else (k, v) :: bumpHour rest h

/-- The count stored in a histogram bucket (`map[hour] || 0`). -/
def histCount (m : Histogram) (h : Nat) : Nat :=
  (m.lookup h).getD 0

/-- The `UserProfile` interface of the memory system module. -/
structure UserProfile where
  productiveHoursMap : Histogram
  unproductiveHoursMap : Histogram
  interventionEffectivenessRate : ℚ
  totalSessions : Nat
  productiveSessions : Nat
  totalInterventions : Nat
  lastUpdated : Int
deriving DecidableEq

/-- The default user profile built in the `MemorySystem` constructor. -/
def defaultProfile (now : Int) : UserProfile where
  productiveHoursMap := []
  unproductiveHoursMap := []
  interventionEffectivenessRate := 0.5
  totalSessions := 0
  productiveSessions := 0
  totalInterventions := 0
  lastUpdated := now

/-- The mutable state of a `MemorySystem` instance. -/
structure MemoryState where
  sessions : List ProductivitySession
  currentSession : Option ProductivitySession
  userProfile : UserProfile
deriving DecidableEq

/-- State of a freshly constructed `MemorySystem`. -/
def initialState (now : Int) : MemoryState where
  sessions := []
  currentSession := none
  userProfile := defaultProfile now

/-- `MemorySystem.startSession`: installs a fresh open session
(`startTime: Date.now()`), unconditionally overwriting any open one. -/
def startSession (now : Int) (st : MemoryState) : MemoryState :=
  { st with
    currentSession := some
      { startTime := now, endTime := none, wasProductive := true,
        interventionsCount := 0, activitySummary := "" } }

/-- `MemorySystem.updateUserProfile`: folds a completed session into the
profile, keyed by the hour of the session's start time.  `getHours` stands
for `new Date(t).getHours()` (local-time hour of a timestamp). -/
def updateUserProfile (getHours : Int → Nat) (now : Int)
    (session : ProductivitySession) (p : UserProfile) : UserProfile :=
  let hour := getHours session.startTime
  let p' :=
    if session.wasProductive then
      { p with productiveSessions := p.productiveSessions + 1,
               productiveHoursMap := bumpHour p.productiveHoursMap hour }
    else
      { p with unproductiveHoursMap := bumpHour p.unproductiveHoursMap hour }
  { p' with totalSessions := p'.totalSessions + 1, lastUpdated := now }

/-- `MemorySystem.endSession`: no-op when no session is open; otherwise
closes the open session, appends it to the session log, folds it into the
profile, trims the log to its last 100 entries (`slice(-100)`), and clears
the open session. -/
def endSession (getHours : Int → Nat) (now : Int) (wasProductive : Bool)
    (summary : String) (st : MemoryState) : MemoryState :=
  match st.currentSession with
  | none => st
  | some cur =>
      let closed := { cur with endTime := some now,
                               wasProductive := wasProductive,
                               activitySummary := summary }
      let sessions := st.sessions ++ [closed]
      let sessions :=
        if sessions.length > 100 then sessions.drop (sessions.length - 100)
        else sessions
      { sessions := sessions,
        currentSession := none,
        userProfile := updateUserProfile getHours now closed st.userProfile }

/-- `MemorySystem.recordIntervention`: only when a session is open,
increments the session's counter and the profile's lifetime counter and
saves immediately.  The boolean of the result records whether `save()` was
invoked. -/
def recordIntervention (st : MemoryState) : MemoryState × Bool :=
  match st.currentSession with
  | some cur =>
      ({ st with
         currentSession := some
           { cur with interventionsCount := cur.interventionsCount + 1 },
         userProfile :=
           { st.userProfile with
             totalInterventions := st.userProfile.totalInterventions + 1 } },
       true)
  | none => (st, false)

/-- `MemorySystem.updateInterventionEffectiveness`: exponential moving
average with `alpha = 0.2` on the 0/1 sample. -/
def updateInterventionEffectiveness (rate : ℚ) (wasEffective : Bool) : ℚ :=
  let alpha : ℚ := 0.2
  let newValue : ℚ := if wasEffective then 1 else 0
  alpha * newValue + (1 - alpha) * rate

/-- `MemorySystem.getTopProductiveHours`: `Object.entries` (ascending
integer keys, i.e. the histogram list itself), stably sorted by descending
count (`sort(([,a],[,b]) => b - a)` — `Array.prototype.sort` is stable),
first `n` kept, keys parsed back to numbers. -/
def getTopProductiveHours (p : UserProfile) (n : Nat) : List Nat :=
  (((p.productiveHoursMap).mergeSort (fun a b => b.2 ≤ a.2)).take n).map (·.1)

/-- `MemorySystem.getTopUnproductiveHours`: same on the unproductive map. -/
def getTopUnproductiveHours (p : UserProfile) (n : Nat) : List Nat :=
  (((p.unproductiveHoursMap).mergeSort (fun a b => b.2 ≤ a.2)).take n).map (·.1)

/-! ## Persistence (`MemorySystem.save` / `MemorySystem.load`)

`save` writes `JSON.stringify({sessions, userProfile})`; `load` runs
`JSON.parse` on the file contents.  The embedding works at the level of the
parsed document: `save` produces the `JsonValue` document and `load`
consumes one (`none` models both a missing file and unparseable contents —
either way `Deno.readTextFile`/`JSON.parse` throws and the `catch` leaves
the state untouched). -/

/-- Reading a JSON number back as the `Int` it was serialized from. -/
def toIntJ : JsonValue → Option Int
  | .jnum q => if q.den = 1 then some q.num else none
  | _ => none

/-- Reading a JSON number back as the `Nat` it was serialized from. -/
def toNatJ : JsonValue → Option Nat
  | .jnum q => if q.den = 1 ∧ 0 ≤ q.num then some q.num.toNat else none
  | _ => none

/-- Reading a JSON boolean. -/
def toBoolJ : JsonValue → Option Bool
  | .jbool b => some b
  | _ => none

/-- Reading a JSON string. -/
def toStrJ : JsonValue → Option String
  | .jstr s => some s
  | _ => none

/-- Reading a JSON number as a rational. -/
def toRatJ : JsonValue → Option ℚ
  | .jnum q => some q
  | _ => none

/-- Serialization of a session object.  `JSON.stringify` drops the
`endTime` field while the session is open (`undefined`). -/
def encodeSession (s : ProductivitySession) : JsonValue :=
  .jobj
    ([("startTime", .jnum s.startTime)] ++
      (match s.endTime with
       | some t => [("endTime", JsonValue.jnum t)]
       | none => []) ++
      [("wasProductive", .jbool s.wasProductive),
       ("interventionsCount", .jnum s.interventionsCount),
       ("activitySummary", .jstr s.activitySummary)])

/-- The typed view of a parsed session object. -/
def decodeSession (j : JsonValue) : Option ProductivitySession := do
  let st ← j.getField "startTime" >>= toIntJ
  let endT ←
    match j.getField "endTime" with
    | none => pure none
    | some v => (toIntJ v).map some
  let wasP ← j.getField "wasProductive" >>= toBoolJ
  let ic ← j.getField "interventionsCount" >>= toNatJ
  let summary ← j.getField "activitySummary" >>= toStrJ
  pure { startTime := st, endTime := endT, wasProductive := wasP,
         interventionsCount := ic, activitySummary := summary }

/-- Serialization of an hour histogram: a JSON object whose keys are the
decimal hour strings. -/
def encodeHist (m : Histogram) : JsonValue :=
  .jobj (m.map fun p => (Nat.repr p.1, .jnum p.2))

/-- Reading a histogram key back: the hour (0–23) whose decimal
representation the key string is. -/
def decodeHourKey (s : String) : Option Nat :=
  (List.range 24).find? (fun h => Nat.repr h == s)

/-- The typed view of the entry list of a parsed histogram object. -/
def decodeHistEntries : List (String × JsonValue) → Option Histogram
  | [] => some []
  | kv :: rest => do
      let h ← decodeHourKey kv.1
      let c ← toNatJ kv.2
      let l ← decodeHistEntries rest
      pure ((h, c) :: l)

/-- The typed view of a parsed histogram object. -/
def decodeHist : JsonValue → Option Histogram
  | .jobj fields => decodeHistEntries fields
  | _ => none

/-- Serialization of the user profile. -/
def encodeProfile (p : UserProfile) : JsonValue :=
  .jobj
    [("productiveHoursMap", encodeHist p.productiveHoursMap),
     ("unproductiveHoursMap", encodeHist p.unproductiveHoursMap),
     ("interventionEffectivenessRate", .jnum p.interventionEffectivenessRate),
     ("totalSessions", .jnum p.totalSessions),
     ("productiveSessions", .jnum p.productiveSessions),
     ("totalInterventions", .jnum p.totalInterventions),
     ("lastUpdated", .jnum p.lastUpdated)]

/-- The typed view of a parsed profile object. -/
def decodeProfile (j : JsonValue) : Option UserProfile := do
  let pm ← j.getField "productiveHoursMap" >>= decodeHist
  let um ← j.getField "unproductiveHoursMap" >>= decodeHist
  let rate ← j.getField "interventionEffectivenessRate" >>= toRatJ
  let ts ← j.getField "totalSessions" >>= toNatJ
  let ps ← j.getField "productiveSessions" >>= toNatJ
  let ti ← j.getField "totalInterventions" >>= toNatJ
  let lu ← j.getField "lastUpdated" >>= toIntJ
  pure { productiveHoursMap := pm, unproductiveHoursMap := um,
         interventionEffectivenessRate := rate, totalSessions := ts,
         productiveSessions := ps, totalInterventions := ti, lastUpdated := lu }

/-- `MemorySystem.save`: the single JSON document
`{sessions: [...], userProfile: {...}}` that gets written to disk. -/
def save (st : MemoryState) : JsonValue :=
  .jobj
    [("sessions", .jarr (st.sessions.map encodeSession)),
     ("userProfile", encodeProfile st.userProfile)]

/-- The typed view of a parsed sessions array's elements. -/
def decodeSessionList : List JsonValue → Option (List ProductivitySession)
  | [] => some []
  | j :: rest => do
      let s ← decodeSession j
      let l ← decodeSessionList rest
      pure (s :: l)

/-- The typed view of the `sessions` array of a parsed document. -/
def decodeSessions : JsonValue → Option (List ProductivitySession)
  | .jarr xs => decodeSessionList xs
  | _ => none

/-- `MemorySystem.load`: on a read/parse failure (`doc = none`) the catch
block leaves the constructor state untouched; otherwise
`this.sessions = memory.sessions || []` and
`this.userProfile = memory.userProfile || this.userProfile`.  A truthy field
whose contents do not fit the typed state cannot be represented in the
embedding; the typed view falls back to the previous state there (that
branch is unreachable for documents produced by `save`). -/
def load (doc : Option JsonValue) (st : MemoryState) : MemoryState :=
  match doc with
  | none => st
  | some j =>
      let sessions :=
        match j.getField "sessions" with
        | some sj => if sj.truthy then (decodeSessions sj).getD st.sessions else []
        | none => []
      let profile :=
        match j.getField "userProfile" with
        | some pj =>
            if pj.truthy then (decodeProfile pj).getD st.userProfile
            else st.userProfile
        | none => st.userProfile
      { st with sessions := sessions, userProfile := profile }

/-! ## Call sequences against the memory store -/

/-- One external call to the memory store's session interface. -/
inductive MemOp where
  | start (now : Int)
  | endS (now : Int) (wasProductive : Bool) (summary : String)

/-- Interpretation of one call. -/
def applyOp (getHours : Int → Nat) (st : MemoryState) : MemOp → MemoryState
  | .start now => startSession now st
  | .endS now w s => endSession getHours now w s st

/-- Interpretation of a call sequence. -/
def runOps (getHours : Int → Nat) (st : MemoryState) (ops : List MemOp) :
    MemoryState :=
  ops.foldl (applyOp getHours) st

/-- The step of the exponential moving average exactly as the spec words it:
new rate `= 0.2·(sample ? 1 : 0) + 0.8·rate`, applied in sequence order.
Stated from the spec for comparison with the implementation
`updateInterventionEffectiveness`. -/
def emaSpec (r0 : ℚ) : List Bool → ℚ
  | [] => r0
  | b :: rest => emaSpec (0.2 * (if b then 1 else 0) + 0.8 * r0) rest

/-- A concrete populated state for exercising the round-trip. -/
def sampleState : MemoryState where
  sessions :=
    [{ startTime := 100, endTime := some 200, wasProductive := true,
       interventionsCount := 1, activitySummary := "wrote code" },
     { startTime := 300, endTime := none, wasProductive := false,
       interventionsCount := 0, activitySummary := "" }]
  currentSession := none
  userProfile :=
    { productiveHoursMap := [(9, 2), (14, 1)]
      unproductiveHoursMap := [(13, 1)]
      interventionEffectivenessRate := 0.5
      totalSessions := 3
      productiveSessions := 2
      totalInterventions := 1
      lastUpdated := 99 }

/-- A payload that passes `parseAgentDecision`'s validation although
`shouldIntervene` is `false` and the intervention type is `"alarm"`. -/
def mixedPayload : JsonValue :=
  .jobj
    [("shouldIntervene", .jbool false),
     ("intervention",
       .jobj [("type", .jstr "alarm"), ("message", .jstr "x"),
              ("timestamp", .jnum 0)]),
     ("reasoning", .jstr "r")]

/-! ## Theorems -/

/-- One EMA step of the implementation is the spec's step. -/
theorem updateInterventionEffectiveness_step (r : ℚ) (b : Bool) :
    updateInterventionEffectiveness r b = 0.2 * (if b then 1 else 0) + 0.8 * r := by
  unfold updateInterventionEffectiveness
  norm_num

/-- C3: applying `updateInterventionEffectiveness` over any sample sequence
from any starting rate equals the spec's EMA with α = 0.2 applied in
sequence order, and the spec's concrete examples hold:
0.5 →(true) 0.6 →(false) 0.48. -/
theorem ema_matches_spec :
    (∀ (r0 : ℚ) (samples : List Bool),
        samples.foldl updateInterventionEffectiveness r0 = emaSpec r0 samples) ∧
    updateInterventionEffectiveness 0.5 true = 0.6 ∧
    updateInterventionEffectiveness 0.6 false = 0.48 := by
  refine ⟨?_, by unfold updateInterventionEffectiveness; norm_num,
    by unfold updateInterventionEffectiveness; norm_num⟩
  intro r0 samples
  induction samples generalizing r0 with
  | nil => rfl
  | cons b rest ih =>
      simp only [List.foldl_cons, emaSpec]
      rw [ih, updateInterventionEffectiveness_step]

/-- C1: whenever the backend call fails, or no payload validates
(no `{...}` block, `JSON.parse` failure, or a payload rejected by the
structural checks), `decideIntervention` returns the safe default decision:
`shouldIntervene = false`, intervention type `"none"`, confidence `0`.
Being a total function, the embedding of `decideIntervention` in particular
never propagates the failure. -/
theorem decideIntervention_fail_closed (now : Int) (hist : List JsonValue)
    (backend : Except Unit (Option JsonValue))
    (h : backend = Except.error () ∨
      ∃ ex, backend = Except.ok ex ∧ wellFormedPayload ex = false) :
    (decideIntervention now backend hist).1.getField "shouldIntervene"
        = some (.jbool false) ∧
    ((decideIntervention now backend hist).1.getField "intervention").bind
        (·.getField "type") = some (.jstr "none") ∧
    (decideIntervention now backend hist).1.getField "confidence"
        = some (.jnum 0) := by
  have hd : (decideIntervention now backend hist).1 = getDefaultDecision now := by
    rcases h with h | ⟨ex, hex, hwf⟩
    · subst h; rfl
    · subst hex
      cases ex with
      | none => rfl
      | some j => simp [decideIntervention, parseAgentDecision, hwf]
  rw [hd]
  exact ⟨rfl, rfl, rfl⟩

/-- Witness for C1 at a concrete failed backend call. -/
theorem decideIntervention_fail_closed_witness :
    ((Except.error () : Except Unit (Option JsonValue)) = Except.error () ∨
      ∃ ex, (Except.error () : Except Unit (Option JsonValue)) = Except.ok ex ∧
        wellFormedPayload ex = false) ∧
    ((decideIntervention 0 (Except.error ()) []).1.getField "shouldIntervene"
        = some (.jbool false) ∧
     ((decideIntervention 0 (Except.error ()) []).1.getField "intervention").bind
        (·.getField "type") = some (.jstr "none") ∧
     (decideIntervention 0 (Except.error ()) []).1.getField "confidence"
        = some (.jnum 0)) :=
  ⟨Or.inl rfl, decideIntervention_fail_closed 0 [] (Except.error ()) (Or.inl rfl)⟩

/-- C2 counterexample: `mixedPayload` passes validation and is returned
verbatim with `shouldIntervene = false` yet intervention type `"alarm"`,
so parsing does not enforce the `shouldIntervene = false ⇒ type = "none"`
invariant (nor the enum check) on every output. -/
theorem parse_no_invariant_enforcement :
    (decideIntervention 0 (Except.ok (some mixedPayload)) []).1.getField
        "shouldIntervene" = some (.jbool false) ∧
    ((decideIntervention 0 (Except.ok (some mixedPayload)) []).1.getField
        "intervention").bind (·.getField "type") = some (.jstr "alarm") ∧
    some (JsonValue.jstr "alarm") ≠ some (JsonValue.jstr "none") := by
  refine ⟨rfl, rfl, ?_⟩
  intro h
  simp at h

/-- C2 (amended): the parser validates only that `shouldIntervene` is a
boolean and that `intervention` and `reasoning` are truthy; a payload that
passes is returned verbatim.  Consequently every decision is either the
default decision — which does satisfy the enum invariant, the
`shouldIntervene = false ⇒ type = "none"` implication, and non-empty
reasoning — or the backend's payload with only those three checks
guaranteed. -/
theorem parse_validation_exactly :
    (∀ now : Int,
      (getDefaultDecision now).getField "shouldIntervene" = some (.jbool false) ∧
      ((getDefaultDecision now).getField "intervention").bind (·.getField "type")
          = some (.jstr "none") ∧
      (getDefaultDecision now).getField "reasoning"
          = some (.jstr "Failed to make decision, defaulting to no intervention")) ∧
    (∀ (now : Int) (backend : Except Unit (Option JsonValue))
        (hist : List JsonValue),
      (decideIntervention now backend hist).1 = getDefaultDecision now ∨
      ∃ j, backend = Except.ok (some j) ∧
        (decideIntervention now backend hist).1 = j ∧
        j.boolField "shouldIntervene" = true ∧
        j.truthyField "intervention" = true ∧
        j.truthyField "reasoning" = true) := by
  constructor
  · intro now
    exact ⟨rfl, rfl, rfl⟩
  · intro now backend hist
    cases backend with
    | error e => exact Or.inl rfl
    | ok ex =>
        cases ex with
        | none => exact Or.inl rfl
        | some j =>
            by_cases hw : wellFormedPayload (some j) = true
            · refine Or.inr ⟨j, rfl, ?_, ?_⟩
              · simp [decideIntervention, parseAgentDecision, hw]
              · unfold wellFormedPayload at hw
                simp only [Bool.and_eq_true] at hw
                exact ⟨hw.1.1, hw.1.2, hw.2⟩
            · rw [Bool.not_eq_true] at hw
              exact Or.inl (by simp [decideIntervention, parseAgentDecision, hw])

/-- C5 counterexample: with the last history record already scored
(`wasEffective = some true`), recording again is not a no-op — the score is
overwritten. -/
theorem record_effectiveness_overwrites :
    recordInterventionEffectiveness
        [{ type := "alarm", message := "m", timestamp := 0,
           wasEffective := some true }] false
      ≠ [{ type := "alarm", message := "m", timestamp := 0,
           wasEffective := some true }] := by
  decide

/-- C5 (amended): `recordInterventionEffectiveness` on an empty history is a
no-op (and, as a total function, does not raise); on a nonempty history it
replaces only the `wasEffective` field of the last record — all earlier
records and all other fields of the last record are untouched — writing the
new score unconditionally, even when the last record was already scored
(last-writer-wins, no already-scored guard). -/
theorem record_effectiveness_frame :
    (∀ b : Bool, recordInterventionEffectiveness [] b = []) ∧
    (∀ (pre : List Intervention) (last : Intervention) (b : Bool),
      recordInterventionEffectiveness (pre ++ [last]) b
        = pre ++ [{ last with wasEffective := some b }]) := by
  constructor
  · intro b; rfl
  · intro pre last b
    unfold recordInterventionEffectiveness
    rw [List.getLast?_concat]
    rw [List.dropLast_concat]

/-- C9: when the persisted document is absent or unparseable (both reach the
`catch`), `load` leaves the store at the constructor's cold-start defaults:
empty session log and the neutral profile (rate 0.5, zero counters, empty
histograms).  The embedding is a total function, so the failure never
propagates to the caller. -/
theorem load_failure_cold_start (now : Int) :
    load none (initialState now) = initialState now ∧
    (initialState now).sessions = [] ∧
    (initialState now).currentSession = none ∧
    (initialState now).userProfile.interventionEffectivenessRate = 0.5 ∧
    (initialState now).userProfile.productiveHoursMap = [] ∧
    (initialState now).userProfile.unproductiveHoursMap = [] ∧
    (initialState now).userProfile.totalSessions = 0 ∧
    (initialState now).userProfile.productiveSessions = 0 ∧
    (initialState now).userProfile.totalInterventions = 0 :=
  ⟨rfl, rfl, rfl, rfl, rfl, rfl, rfl, rfl, rfl⟩

/-- C10: with no open session, `recordIntervention` returns the state
unchanged and does not save (`false` flag): in particular the profile's
lifetime `totalInterventions` counter stays as it is.  The
increment-and-save path runs only when a session is open. -/
theorem recordIntervention_noop_without_session (st : MemoryState) :
    (st.currentSession = none → recordIntervention st = (st, false)) ∧
    (∀ cur, st.currentSession = some cur →
      (recordIntervention st).2 = true ∧
      (recordIntervention st).1.userProfile.totalInterventions
        = st.userProfile.totalInterventions + 1) := by
  constructor
  · intro h
    unfold recordIntervention
    rw [h]
  · intro cur h
    unfold recordIntervention
    rw [h]
    exact ⟨rfl, rfl⟩

/-- Witness for C10 on concrete states: the fresh state (no open session)
is left untouched and unsaved; a state with an open session saves. -/
theorem recordIntervention_noop_without_session_witness :
    ((initialState 0).currentSession = none →
      recordIntervention (initialState 0) = (initialState 0, false)) ∧
    recordIntervention (initialState 0) = (initialState 0, false) ∧
    (startSession 5 (initialState 0)).currentSession ≠ none :=
  ⟨(recordIntervention_noop_without_session (initialState 0)).1,
   (recordIntervention_noop_without_session (initialState 0)).1 rfl,
   by simp [startSession, initialState]⟩

/-- Closed form of one history append. -/
theorem addToHistory_eq {α : Type} (hist : List α) (a : α) :
    addToHistory hist a =
      if maxHistorySize < hist.length + 1 then (hist ++ [a]).drop 1
      else hist ++ [a] := by
  unfold addToHistory
  simp [List.length_append]

/-- The in-process history after any append sequence keeps exactly the
most recent `maxHistorySize` records (`drop` of all but the suffix). -/
theorem foldl_addToHistory_eq_drop {α : Type} (l : List α) :
    l.foldl addToHistory [] = l.drop (l.length - maxHistorySize) := by
  induction l using List.reverseRecOn with
  | nil => rfl
  | append_singleton l a ih =>
      rw [List.foldl_append, List.foldl_cons, List.foldl_nil, ih, addToHistory_eq]
      have hlen : (List.drop (l.length - maxHistorySize) l).length
          = l.length - (l.length - maxHistorySize) := List.length_drop _ _
      simp only [maxHistorySize] at hlen ⊢
      by_cases hl : l.length < 10
      · have hc : ¬ (10 < (List.drop (l.length - 10) l).length + 1) := by
          rw [hlen]; omega
        rw [if_neg hc]
        have h0 : l.length - 10 = 0 := by omega
        have h1 : (l ++ [a]).length - 10 = 0 := by
          simp only [List.length_append, List.length_cons, List.length_nil]; omega
        rw [h0, h1, List.drop_zero, List.drop_zero]
      · have hc : 10 < (List.drop (l.length - 10) l).length + 1 := by
          rw [hlen]; omega
        rw [if_pos hc]
        have hd1 : (1 : Nat) ≤ (List.drop (l.length - 10) l).length := by
          rw [hlen]; omega
        rw [List.drop_append_of_le_length hd1, List.drop_drop]
        have h2 : (l ++ [a]).length - 10 ≤ l.length := by
          simp only [List.length_append, List.length_cons, List.length_nil]
          omega
        rw [List.drop_append_of_le_length h2]
        have h3 : l.length - 10 + 1 = (l ++ [a]).length - 10 := by
          simp only [List.length_append, List.length_cons, List.length_nil]
          omega
        rw [h3]

/-- C4: after `maxHistorySize + k` appends (`k ≥ 0`) into an initially empty
in-process history, the history has length exactly `maxHistorySize` and is
exactly the suffix of the `maxHistorySize` most recently appended records,
in append order (oldest evicted first). -/
theorem history_bound (records : List Intervention)
    (h : maxHistorySize ≤ records.length) :
    (records.foldl addToHistory ([] : List Intervention)).length
        = maxHistorySize ∧
    records.foldl addToHistory ([] : List Intervention)
        = records.drop (records.length - maxHistorySize) := by
  refine ⟨?_, foldl_addToHistory_eq_drop records⟩
  rw [foldl_addToHistory_eq_drop, List.length_drop]
  omega

/-- Witness for C4 with twelve concrete records (`k = 2`). -/
theorem history_bound_witness :
    maxHistorySize
        ≤ ((List.range 12).map
            (fun k => Intervention.mk "alarm" "m" k none)).length ∧
    (((List.range 12).map
        (fun k => Intervention.mk "alarm" "m" k none)).foldl addToHistory
          ([] : List Intervention)).length = maxHistorySize ∧
    ((List.range 12).map
        (fun k => Intervention.mk "alarm" "m" k none)).foldl addToHistory
          ([] : List Intervention)
      = ((List.range 12).map (fun k => Intervention.mk "alarm" "m" k none)).drop
          (((List.range 12).map
              (fun k => Intervention.mk "alarm" "m" k none)).length
            - maxHistorySize) :=
  ⟨by decide,
   history_bound ((List.range 12).map (fun k => Intervention.mk "alarm" "m" k none))
     (by decide)⟩

/-- A key absent from every entry is not found by `lookup`. -/
theorem lookup_eq_none_of_forall_ne (m : Histogram) (h : Nat)
    (hm : ∀ p ∈ m, p.1 ≠ h) : m.lookup h = none := by
  induction m with
  | nil => rfl
  | cons kv rest ih =>
      obtain ⟨k, v⟩ := kv
      have hk : (h == k) = false := by
        have := hm (k, v) (List.mem_cons_self _ _)
        simp only [ne_eq] at this
        simp [Ne.symm this]
      simp only [List.lookup, hk]
      exact ih fun p hp => hm p (List.mem_cons_of_mem _ hp)

/-- Bumping an hour increments that bucket by exactly one (on a histogram
with strictly ascending keys, the shape a JavaScript object always has). -/
theorem histCount_bumpHour_self (m : Histogram) (h : Nat)
    (hs : m.Pairwise (fun a b => a.1 < b.1)) :
    histCount (bumpHour m h) h = histCount m h + 1 := by
  induction m with
  | nil => simp [bumpHour, histCount, List.lookup]
  | cons kv rest ih =>
      obtain ⟨k, v⟩ := kv
      rw [List.pairwise_cons] at hs
      by_cases hk : h = k
      · subst hk
        simp [bumpHour, histCount, List.lookup]
      · have hkb : (h == k) = false := by simp [hk]
        by_cases hlt : h < k
        · have hnone : rest.lookup h = none := by
            refine lookup_eq_none_of_forall_ne rest h fun p hp => ?_
            have := hs.1 p hp
            omega
          simp [bumpHour, hk, hlt, histCount, List.lookup, hkb, hnone]
        · simp only [bumpHour, if_neg hk, if_neg hlt]
          simp only [histCount, List.lookup, hkb]
          exact ih hs.2

/-- Bumping an hour leaves every other bucket unchanged. -/
theorem histCount_bumpHour_ne (m : Histogram) (h h2 : Nat) (hne : h2 ≠ h) :
    histCount (bumpHour m h) h2 = histCount m h2 := by
  have hb : (h2 == h) = false := by simp [hne]
  induction m with
  | nil => simp [bumpHour, histCount, List.lookup, hb]
  | cons kv rest ih =>
      obtain ⟨k, v⟩ := kv
      by_cases hk : h = k
      · subst hk
        simp [bumpHour, histCount, List.lookup, hb]
      · by_cases hlt : h < k
        · have h2h : (h2 == h) = false := by simp [hne]
          simp [bumpHour, hk, hlt, histCount, List.lookup, h2h]
        · by_cases hk2 : h2 = k
          · subst hk2
            simp [bumpHour, hk, hlt, histCount, List.lookup]
          · have hk2b : (h2 == k) = false := by simp [hk2]
            simp only [bumpHour, if_neg hk, if_neg hlt]
            simp only [histCount, List.lookup, hk2b]
            exact ih

/-- One memory-store call preserves `productiveSessions ≤ totalSessions`. -/
theorem applyOp_preserves_le (g : Int → Nat) (st : MemoryState) (op : MemOp)
    (h : st.userProfile.productiveSessions ≤ st.userProfile.totalSessions) :
    (applyOp g st op).userProfile.productiveSessions
      ≤ (applyOp g st op).userProfile.totalSessions := by
  cases op with
  | start now => simpa [applyOp, startSession] using h
  | endS now w s =>
      cases hc : st.currentSession with
      | none => simpa [applyOp, endSession, hc] using h
      | some cur =>
          simp only [applyOp, endSession, hc, updateUserProfile]
          cases w <;> simp <;> omega

/-- Any call sequence preserves `productiveSessions ≤ totalSessions`. -/
theorem runOps_le (g : Int → Nat) (st : MemoryState) (ops : List MemOp)
    (h : st.userProfile.productiveSessions ≤ st.userProfile.totalSessions) :
    (runOps g st ops).userProfile.productiveSessions
      ≤ (runOps g st ops).userProfile.totalSessions := by
  induction ops generalizing st with
  | nil => exact h
  | cons op rest ih =>
      exact ih (applyOp g st op) (applyOp_preserves_le g st op h)

/-- C6: (a) after any sequence of `startSession`/`endSession` calls from the
fresh store, `productiveSessions ≤ totalSessions`; (b) `endSession` on an
open session bumps exactly the bucket for the hour of the session's *start*
time — in the productive histogram when closed as productive, else the
unproductive one — by exactly 1, leaving every other bucket of both
histograms unchanged (histograms carry the ascending-key shape of a
JavaScript object). -/
theorem session_accounting :
    (∀ (g : Int → Nat) (now0 : Int) (ops : List MemOp),
      (runOps g (initialState now0) ops).userProfile.productiveSessions
        ≤ (runOps g (initialState now0) ops).userProfile.totalSessions) ∧
    (∀ (g : Int → Nat) (now : Int) (w : Bool) (s : String) (st : MemoryState)
        (cur : ProductivitySession),
      st.currentSession = some cur →
      st.userProfile.productiveHoursMap.Pairwise (fun a b => a.1 < b.1) →
      st.userProfile.unproductiveHoursMap.Pairwise (fun a b => a.1 < b.1) →
      ((w = true →
          histCount (endSession g now w s st).userProfile.productiveHoursMap
              (g cur.startTime)
            = histCount st.userProfile.productiveHoursMap (g cur.startTime) + 1 ∧
          (∀ h2, h2 ≠ g cur.startTime →
            histCount (endSession g now w s st).userProfile.productiveHoursMap h2
              = histCount st.userProfile.productiveHoursMap h2) ∧
          (endSession g now w s st).userProfile.unproductiveHoursMap
            = st.userProfile.unproductiveHoursMap) ∧
        (w = false →
          histCount (endSession g now w s st).userProfile.unproductiveHoursMap
              (g cur.startTime)
            = histCount st.userProfile.unproductiveHoursMap (g cur.startTime) + 1 ∧
          (∀ h2, h2 ≠ g cur.startTime →
            histCount (endSession g now w s st).userProfile.unproductiveHoursMap h2
              = histCount st.userProfile.unproductiveHoursMap h2) ∧
          (endSession g now w s st).userProfile.productiveHoursMap
            = st.userProfile.productiveHoursMap))) := by
  constructor
  · intro g now0 ops
    exact runOps_le g (initialState now0) ops (Nat.le_refl 0)
  · intro g now w s st cur hc hsp hsu
    constructor
    · rintro rfl
      simp only [endSession, hc, updateUserProfile, if_pos]
      exact ⟨histCount_bumpHour_self _ _ hsp,
        fun h2 hne => histCount_bumpHour_ne _ _ _ hne, trivial⟩
    · rintro rfl
      simp only [endSession, hc, updateUserProfile, Bool.false_eq_true, if_false]
      exact ⟨histCount_bumpHour_self _ _ hsu,
        fun h2 hne => histCount_bumpHour_ne _ _ _ hne, trivial⟩

/-- Witness for C6 part (b): closing a concrete open session started at a
time whose hour is 9 bumps the productive 9-bucket from 0 to 1. -/
theorem session_accounting_witness :
    ((startSession 3 (initialState 0)).currentSession
        = some { startTime := 3, endTime := none, wasProductive := true,
                 interventionsCount := 0, activitySummary := "" }) ∧
    (runOps (fun t => t.toNat % 24) (initialState 0)
        [MemOp.start 3, MemOp.endS 4 true "done"]).userProfile.productiveSessions
      ≤ (runOps (fun t => t.toNat % 24) (initialState 0)
          [MemOp.start 3, MemOp.endS 4 true "done"]).userProfile.totalSessions ∧
    histCount
        (endSession (fun t => t.toNat % 24) 4 true "done"
          (startSession 3 (initialState 0))).userProfile.productiveHoursMap
        ((3 : Int).toNat % 24)
      = histCount
          (startSession 3 (initialState 0)).userProfile.productiveHoursMap
          ((3 : Int).toNat % 24) + 1 :=
  ⟨rfl,
   session_accounting.1 (fun t => t.toNat % 24) 0 [MemOp.start 3, MemOp.endS 4 true "done"],
   (((session_accounting.2 (fun t => t.toNat % 24) 4 true "done"
        (startSession 3 (initialState 0))
        { startTime := 3, endTime := none, wasProductive := true,
          interventionsCount := 0, activitySummary := "" }
        rfl (List.Pairwise.nil) (List.Pairwise.nil)).1 rfl).1)⟩

/-- An `Int` serialized as a JSON number reads back exactly. -/
theorem toIntJ_encode (t : Int) : toIntJ (.jnum (t : ℚ)) = some t := by
  simp [toIntJ, Rat.den_intCast, Rat.num_intCast]

/-- A `Nat` serialized as a JSON number reads back exactly. -/
theorem toNatJ_encode (n : Nat) : toNatJ (.jnum (n : ℚ)) = some n := by
  simp [toNatJ, Rat.den_natCast, Rat.num_natCast]

/-- A session object round-trips through the persisted document. -/
theorem decodeSession_encodeSession (s : ProductivitySession) :
    decodeSession (encodeSession s) = some s := by
  obtain ⟨st, et, w, ic, su⟩ := s
  cases et with
  | none =>
      simp [decodeSession, encodeSession, JsonValue.getField, List.lookup,
        toIntJ_encode, toNatJ_encode, toBoolJ, toStrJ]
  | some t =>
      simp [decodeSession, encodeSession, JsonValue.getField, List.lookup,
        toIntJ_encode, toNatJ_encode, toBoolJ, toStrJ]

/-- The sessions array round-trips elementwise. -/
theorem decodeSessions_encode (l : List ProductivitySession) :
    decodeSessions (.jarr (l.map encodeSession)) = some l := by
  suffices h : decodeSessionList (l.map encodeSession) = some l by
    simpa [decodeSessions] using h
  induction l with
  | nil => rfl
  | cons s rest ih =>
      simp [decodeSessionList, decodeSession_encodeSession s, ih]

/-- Decimal key strings for hours 0–23 parse back to the hour. -/
theorem decodeHourKey_repr : ∀ n < 24, decodeHourKey (Nat.repr n) = some n := by
  decide

/-- A histogram whose keys are hours round-trips through the document. -/
theorem decodeHist_encodeHist (m : Histogram) (hm : ∀ p ∈ m, p.1 < 24) :
    decodeHist (encodeHist m) = some m := by
  suffices h : decodeHistEntries (m.map fun p => (Nat.repr p.1, .jnum p.2))
      = some m by
    simpa [decodeHist, encodeHist] using h
  induction m with
  | nil => rfl
  | cons kv rest ih =>
      obtain ⟨k, v⟩ := kv
      have hk : decodeHourKey (Nat.repr k) = some k :=
        decodeHourKey_repr k (hm (k, v) (List.mem_cons_self _ _))
      have ihr := ih fun p hp => hm p (List.mem_cons_of_mem _ hp)
      simp [decodeHistEntries, hk, toNatJ_encode, ihr]

/-- The user profile round-trips through the persisted document. -/
theorem decodeProfile_encodeProfile (p : UserProfile)
    (hp : ∀ q ∈ p.productiveHoursMap, q.1 < 24)
    (hu : ∀ q ∈ p.unproductiveHoursMap, q.1 < 24) :
    decodeProfile (encodeProfile p) = some p := by
  obtain ⟨pm, um, rate, ts, ps, ti, lu⟩ := p
  simp [decodeProfile, encodeProfile, JsonValue.getField, List.lookup,
    decodeHist_encodeHist pm hp, decodeHist_encodeHist um hu,
    toRatJ, toNatJ_encode, toIntJ_encode]

/-- C8: saving the store's state and loading the resulting document into a
fresh `MemorySystem` reproduces the observable state exactly: the same
sessions in the same order and the same profile (counts, histograms,
effectiveness rate).  Histogram keys are hours (`0–23`, the domain the data
model gives them). -/
theorem save_load_roundtrip (now : Int) (st : MemoryState)
    (hp : ∀ p ∈ st.userProfile.productiveHoursMap, p.1 < 24)
    (hu : ∀ p ∈ st.userProfile.unproductiveHoursMap, p.1 < 24) :
    (load (some (save st)) (initialState now)).sessions = st.sessions ∧
    (load (some (save st)) (initialState now)).userProfile = st.userProfile := by
  have hsess : (save st).getField "sessions"
      = some (.jarr (st.sessions.map encodeSession)) := rfl
  have hprof : (save st).getField "userProfile"
      = some (encodeProfile st.userProfile) := rfl
  have htr : (encodeProfile st.userProfile).truthy = true := rfl
  constructor
  · simp [load, hsess, JsonValue.truthy, decodeSessions_encode]
  · simp [load, hprof, htr, decodeProfile_encodeProfile st.userProfile hp hu]

/-- Witness for C8 on `sampleState`. -/
theorem save_load_roundtrip_witness :
    (∀ p ∈ sampleState.userProfile.productiveHoursMap, p.1 < 24) ∧
    (∀ p ∈ sampleState.userProfile.unproductiveHoursMap, p.1 < 24) ∧
    (load (some (save sampleState)) (initialState 0)).sessions
        = sampleState.sessions ∧
    (load (some (save sampleState)) (initialState 0)).userProfile
        = sampleState.userProfile :=
  ⟨by decide, by decide,
   (save_load_roundtrip 0 sampleState (by decide) (by decide)).1,
   (save_load_roundtrip 0 sampleState (by decide) (by decide)).2⟩

/-- Two distinct members of a list form a pair sublist in one order or the
other. -/
theorem pair_sublist_of_mem {α : Type} {x y : α} {l : List α}
    (hx : x ∈ l) (hy : y ∈ l) (hne : x ≠ y) :
    List.Sublist [x, y] l ∨ List.Sublist [y, x] l := by
  induction l with
  | nil => cases hx
  | cons a t ih =>
      rcases List.mem_cons.mp hx with rfl | hx'
      · have hyt : y ∈ t := by
          rcases List.mem_cons.mp hy with rfl | hy'
          · exact absurd rfl hne
          · exact hy'
        exact Or.inl (List.Sublist.cons₂ x (List.singleton_sublist.mpr hyt))
      · rcases List.mem_cons.mp hy with rfl | hy'
        · exact Or.inr (List.Sublist.cons₂ y (List.singleton_sublist.mpr hx'))
        · rcases ih hx' hy' with h | h
          · exact Or.inl (h.cons a)
          · exact Or.inr (h.cons a)

/-- In a duplicate-free list, a pair cannot be a sublist in both orders
unless its components coincide. -/
theorem sublist_pair_antisymm {α : Type} {x y : α} {l : List α}
    (hn : l.Nodup) (h1 : List.Sublist [x, y] l) (h2 : List.Sublist [y, x] l) :
    x = y := by
  induction l with
  | nil => cases h1
  | cons a t ih =>
      rw [List.nodup_cons] at hn
      cases h1 with
      | cons _ h1' =>
          cases h2 with
          | cons _ h2' => exact ih hn.2 h1' h2'
          | cons₂ _ h2' => exact absurd (h1'.subset (by simp)) hn.1
      | cons₂ _ h1' =>
          cases h2 with
          | cons _ h2' => exact absurd (h2'.subset (by simp)) hn.1
          | cons₂ _ h2' => rfl

/-- On an ascending-key histogram, `lookup` of a member's key returns its
count. -/
theorem lookup_of_mem_sorted (m : Histogram) (a : Nat × Nat)
    (hs : m.Pairwise (fun p q => p.1 < q.1)) (ha : a ∈ m) :
    m.lookup a.1 = some a.2 := by
  obtain ⟨k, v⟩ := a
  induction m with
  | nil => cases ha
  | cons kv rest ih =>
      obtain ⟨k2, v2⟩ := kv
      rw [List.pairwise_cons] at hs
      rcases List.mem_cons.mp ha with he | ha'
      · rw [Prod.mk.injEq] at he
        obtain ⟨rfl, rfl⟩ := he
        simp [List.lookup]
      · have hlt := hs.1 (k, v) ha'
        have hne : (k == k2) = false := by
          simp only [beq_eq_false_iff_ne, ne_eq]
          simp only at hlt
          omega
        simp only [List.lookup, hne]
        exact ih hs.2 ha'

/-- The stable descending-count sort of an ascending-key histogram is
pairwise ordered by count descending with ties broken by ascending hour. -/
theorem topHours_pairwise (m : Histogram) (n : Nat)
    (hs : m.Pairwise (fun p q => p.1 < q.1)) :
    ((((m.mergeSort (fun a b => b.2 ≤ a.2)).take n).map (·.1)).Pairwise
      (fun h1 h2 => histCount m h2 < histCount m h1 ∨
        (histCount m h1 = histCount m h2 ∧ h1 < h2))) := by
  have htrans : ∀ (a b c : Nat × Nat),
      (fun (a b : Nat × Nat) => decide (b.2 ≤ a.2)) a b = true →
      (fun (a b : Nat × Nat) => decide (b.2 ≤ a.2)) b c = true →
      (fun (a b : Nat × Nat) => decide (b.2 ≤ a.2)) a c = true := by
    intro a b c hab hbc
    simp only [decide_eq_true_eq] at hab hbc ⊢
    omega
  have htotal : ∀ (a b : Nat × Nat),
      ((fun (a b : Nat × Nat) => decide (b.2 ≤ a.2)) a b ||
        (fun (a b : Nat × Nat) => decide (b.2 ≤ a.2)) b a) = true := by
    intro a b
    simp only [Bool.or_eq_true, decide_eq_true_eq]
    omega
  have hnodup : m.Nodup := by
    refine List.Pairwise.imp ?_ hs
    intro a b hab he
    subst he
    omega
  have hsorted := List.sorted_mergeSort htrans htotal m
  have hperm := List.mergeSort_perm m (fun a b => decide (b.2 ≤ a.2))
  have hnodupS : (m.mergeSort (fun a b => b.2 ≤ a.2)).Nodup :=
    hperm.nodup_iff.mpr hnodup
  have hpw : (m.mergeSort (fun a b => b.2 ≤ a.2)).Pairwise
      (fun a b => histCount m b.1 < histCount m a.1 ∨
        (histCount m a.1 = histCount m b.1 ∧ a.1 < b.1)) := by
    rw [List.pairwise_iff_forall_sublist]
    intro a b hsub
    have hle : (fun (a b : Nat × Nat) => decide (b.2 ≤ a.2)) a b = true :=
      List.pairwise_iff_forall_sublist.mp hsorted hsub
    have hble : b.2 ≤ a.2 := by simpa using hle
    have hnd2 : ([a, b] : List (Nat × Nat)).Nodup := hnodupS.sublist hsub
    have hne : a ≠ b := by
      rw [List.nodup_cons] at hnd2
      simpa using hnd2.1
    have ham : a ∈ m := List.mem_mergeSort.mp (hsub.subset (by simp))
    have hbm : b ∈ m := List.mem_mergeSort.mp (hsub.subset (by simp))
    have hca : m.lookup a.1 = some a.2 := lookup_of_mem_sorted m a hs ham
    have hcb : m.lookup b.1 = some b.2 := lookup_of_mem_sorted m b hs hbm
    have hCa : histCount m a.1 = a.2 := by simp [histCount, hca]
    have hCb : histCount m b.1 = b.2 := by simp [histCount, hcb]
    by_cases hlt : b.2 < a.2
    · left
      rw [hCa, hCb]
      exact hlt
    · have heq : a.2 = b.2 := by omega
      right
      refine ⟨by rw [hCa, hCb, heq], ?_⟩
      rcases pair_sublist_of_mem ham hbm hne with hab | hba
      · exact List.pairwise_iff_forall_sublist.mp hs hab
      · have hleba : (fun (a b : Nat × Nat) => decide (b.2 ≤ a.2)) b a = true := by
          simp only [decide_eq_true_eq]
          omega
        have hstab := List.pair_sublist_mergeSort htrans htotal hleba hba
        exact absurd (sublist_pair_antisymm hnodupS hsub hstab) hne
  rw [List.pairwise_map]
  exact List.Pairwise.sublist (List.take_sublist n _) hpw

/-- C7: the top-hour queries return at most `n` hours, ordered by strictly
descending bucket count except that equal counts are ordered by ascending
hour number (the stable sort keeps the ascending-key enumeration order of
the histogram object on ties). -/
theorem top_hours_deterministic (p : UserProfile) (n : Nat)
    (hp : p.productiveHoursMap.Pairwise (fun a b => a.1 < b.1))
    (hu : p.unproductiveHoursMap.Pairwise (fun a b => a.1 < b.1)) :
    ((getTopProductiveHours p n).length ≤ n ∧
      (getTopProductiveHours p n).Pairwise (fun h1 h2 =>
        histCount p.productiveHoursMap h2 < histCount p.productiveHoursMap h1 ∨
        (histCount p.productiveHoursMap h1 = histCount p.productiveHoursMap h2 ∧
          h1 < h2))) ∧
    ((getTopUnproductiveHours p n).length ≤ n ∧
      (getTopUnproductiveHours p n).Pairwise (fun h1 h2 =>
        histCount p.unproductiveHoursMap h2 < histCount p.unproductiveHoursMap h1 ∨
        (histCount p.unproductiveHoursMap h1 = histCount p.unproductiveHoursMap h2 ∧
          h1 < h2))) := by
  refine ⟨⟨?_, topHours_pairwise _ n hp⟩, ⟨?_, topHours_pairwise _ n hu⟩⟩
  · rw [getTopProductiveHours, List.length_map]
    exact List.length_take_le n _
  · rw [getTopUnproductiveHours, List.length_map]
    exact List.length_take_le n _

/-- Witness for C7 on a profile with a tied count: hours 9 and 14 both have
count 2, and 9 comes first. -/
theorem top_hours_deterministic_witness :
    (([(9, 2), (14, 2), (20, 1)] : Histogram).Pairwise (fun a b => a.1 < b.1)) ∧
    (([(13, 1)] : Histogram).Pairwise (fun a b => a.1 < b.1)) ∧
    ((getTopProductiveHours
        { productiveHoursMap := [(9, 2), (14, 2), (20, 1)],
          unproductiveHoursMap := [(13, 1)],
          interventionEffectivenessRate := 0.5, totalSessions := 5,
          productiveSessions := 5, totalInterventions := 0,
          lastUpdated := 0 } 2).length ≤ 2 ∧
      (getTopProductiveHours
        { productiveHoursMap := [(9, 2), (14, 2), (20, 1)],
          unproductiveHoursMap := [(13, 1)],
          interventionEffectivenessRate := 0.5, totalSessions := 5,
          productiveSessions := 5, totalInterventions := 0,
          lastUpdated := 0 } 2).Pairwise (fun h1 h2 =>
        histCount [(9, 2), (14, 2), (20, 1)] h2
            < histCount [(9, 2), (14, 2), (20, 1)] h1 ∨
        (histCount [(9, 2), (14, 2), (20, 1)] h1
            = histCount [(9, 2), (14, 2), (20, 1)] h2 ∧ h1 < h2))) :=
  ⟨by decide, by decide,
   (top_hours_deterministic
      { productiveHoursMap := [(9, 2), (14, 2), (20, 1)],
        unproductiveHoursMap := [(13, 1)],
        interventionEffectivenessRate := 0.5, totalSessions := 5,
        productiveSessions := 5, totalInterventions := 0,
        lastUpdated := 0 } 2 (by decide) (by decide)).1⟩
